import Mathlib

/-!
AlumniVerification — shallow embedding.

A shallow embedding of `src/BlockChain/src/AlumniVerification.sol`
(contract `AlumniVerification`): the contract storage becomes an explicit
state record, every external function becomes a Lean function from a state
(plus the transaction environment: `msg.sender`, `block.timestamp`,
`block.number`) to either a `VmError` — one constructor per `require`
message in the source — or a result together with the updated state.
Solidity's revert semantics (a failed call leaves storage untouched) is
captured by `step`, which returns the original state on error.

`keccak256 (abi.encodePacked …))` over six strings is modelled as an
arbitrary digest function applied to the undelimited concatenation of the
fields; theorems that need collision-freedom of the digest take it as an
explicit hypothesis on the two digested strings.
-/

namespace AlumniVerification

/-- Caller identities (Solidity `address`); `0` models `address(0)`. -/
abbrev Address := Nat

/-- 32-byte words (Solidity `bytes32`); `0` models `bytes32(0)`. -/
abbrev Bytes32 := Nat

/-- The stored record (struct `AlumniRecord`, lines 24–32 of the source). -/
structure AlumniRecord where
  certId : String
  dataHash : Bytes32
  issuer : Address
  timestamp : Nat
  blockNumber : Nat
  recExists : Bool
  issuerName : String
deriving DecidableEq, Repr

/-- Default value of a `mapping(string => AlumniRecord)` slot. -/
def emptyRecord : AlumniRecord :=
  { certId := "", dataHash := 0, issuer := 0, timestamp := 0,
    blockNumber := 0, recExists := false, issuerName := "" }

/-- Contract storage: `owner`, `authorizedIssuers`, `issuerNames`,
`records`, `certificateIds`, `totalRecords` (lines 15–41). -/
structure ContractState where
  owner : Address
  authorizedIssuers : Address → Bool
  issuerNames : Address → String
  records : String → AlumniRecord
  certificateIds : List String
  totalRecords : Nat

/-- One constructor per `require` message in the source. -/
inductive VmError where
  | onlyOwner                -- "Only owner can call this function"
  | notAuthorizedIssuer      -- "Not an authorized issuer"
  | certIdAlreadyExists      -- "Certificate ID already exists"
  | certIdDoesNotExist       -- "Certificate ID does not exist"
  | invalidIssuerAddress     -- "Invalid issuer address"
  | issuerAlreadyAuthorized  -- "Issuer already authorized"
  | issuerNotAuthorized      -- "Issuer not authorized"
  | cannotRevokeOwner        -- "Cannot revoke owner"
  | invalidNewOwnerAddress   -- "Invalid new owner address"
  | alreadyTheOwner          -- "Already the owner"
  | emptyCertId              -- "Certificate ID cannot be empty"
  | emptyDataHash            -- "Data hash cannot be empty"
deriving DecidableEq, Repr

/-- The constructor (lines 102–107): deployer becomes owner and the first
authorized issuer, with the given institution name. -/
def initState (deployer : Address) (institutionName : String) : ContractState :=
  { owner := deployer
    authorizedIssuers := fun a => if a = deployer then true else false
    issuerNames := fun a => if a = deployer then institutionName else ""
    records := fun _ => emptyRecord
    certificateIds := []
    totalRecords := 0 }

/-- Function `authorizeIssuer` (lines 118–126), with the `onlyOwner` modifier first. -/
def authorizeIssuer (st : ContractState) (sender issuer : Address)
    (name : String) : Except VmError ContractState :=
  if sender = st.owner then
    if issuer = 0 then .error .invalidIssuerAddress
    else if st.authorizedIssuers issuer = true then .error .issuerAlreadyAuthorized
    else .ok { st with
      authorizedIssuers := fun a => if a = issuer then true else st.authorizedIssuers a
      issuerNames := fun a => if a = issuer then name else st.issuerNames a }
  else .error .onlyOwner

/-- Function `revokeIssuer` (lines 132–139), with the `onlyOwner` modifier first. -/
def revokeIssuer (st : ContractState) (sender issuer : Address) :
    Except VmError ContractState :=
  if sender = st.owner then
    if st.authorizedIssuers issuer = false then .error .issuerNotAuthorized
    else if issuer = st.owner then .error .cannotRevokeOwner
    else .ok { st with
      authorizedIssuers := fun a => if a = issuer then false else st.authorizedIssuers a }
  else .error .onlyOwner

/-- Function `transferOwnership` (lines 145–155): reassigns `owner` and authorizes
the new owner as issuer if not already. -/
def transferOwnership (st : ContractState) (sender newOwner : Address) :
    Except VmError ContractState :=
  if sender = st.owner then
    if newOwner = 0 then .error .invalidNewOwnerAddress
    else if newOwner = st.owner then .error .alreadyTheOwner
    else
      if st.authorizedIssuers newOwner = false then
        .ok { st with
          owner := newOwner
          authorizedIssuers := fun a => if a = newOwner then true else st.authorizedIssuers a }
      else .ok { st with owner := newOwner }
  else .error .onlyOwner

/-- Function `addAlumniRecord` (lines 169–198). Modifier order from the source:
`onlyAuthorizedIssuer`, then `certIdNotExists`, then the body `require`s
on empty `certId` and zero `dataHash`. -/
def addAlumniRecord (st : ContractState) (sender : Address)
    (blockTimestamp blockNum : Nat) (certId : String) (dataHash : Bytes32) :
    Except VmError ((Bool × Nat × Nat) × ContractState) :=
  if st.authorizedIssuers sender = false then .error .notAuthorizedIssuer
  else if (st.records certId).recExists = true then .error .certIdAlreadyExists
  else if certId = "" then .error .emptyCertId
  else if dataHash = 0 then .error .emptyDataHash
  else
    let newRecord : AlumniRecord :=
      { certId := certId, dataHash := dataHash, issuer := sender,
        timestamp := blockTimestamp, blockNumber := blockNum,
        recExists := true, issuerName := st.issuerNames sender }
    .ok ((true, blockTimestamp, blockNum),
      { st with
        records := fun k => if k = certId then newRecord else st.records k
        certificateIds := st.certificateIds ++ [certId]
        totalRecords := st.totalRecords + 1 })

/-- Function `verifyRecord` (lines 210–223), with the `certIdExists` modifier. -/
def verifyRecord (st : ContractState) (certId : String) (dataHash : Bytes32) :
    Except VmError (Bool × Address × String × Nat × Nat) :=
  if (st.records certId).recExists = false then .error .certIdDoesNotExist
  else
    let record := st.records certId
    .ok (decide (record.dataHash = dataHash), record.issuer, record.issuerName,
         record.timestamp, record.blockNumber)

/-- Function `getRecord` (lines 235–250): pure lookup, never fails. -/
def getRecord (st : ContractState) (certId : String) :
    Bytes32 × Address × String × Nat × Nat × Bool :=
  let record := st.records certId
  (record.dataHash, record.issuer, record.issuerName, record.timestamp,
   record.blockNumber, record.recExists)

/-- Function `recordExists` (lines 257–259). -/
def recordExists (st : ContractState) (certId : String) : Bool :=
  (st.records certId).recExists

/-- Function `getAllCertificateIds` (lines 265–267). -/
def getAllCertificateIds (st : ContractState) : List String :=
  st.certificateIds

/-- Function `getTotalRecords` (lines 273–275). -/
def getTotalRecords (st : ContractState) : Nat :=
  st.totalRecords

/-- Function `isAuthorizedIssuer` (lines 282–284). -/
def isAuthorizedIssuer (st : ContractState) (a : Address) : Bool :=
  st.authorizedIssuers a

/-- Function `getIssuerName` (lines 291–293). -/
def getIssuerName (st : ContractState) (issuer : Address) : String :=
  st.issuerNames issuer

/-- Solidity `abi.encodePacked` over six string arguments: their undelimited
concatenation (line 317). -/
def encodePacked (name rollNumber degree branch graduationYear certId : String) :
    String :=
  name ++ rollNumber ++ degree ++ branch ++ graduationYear ++ certId

/-- Function `generateDataHash` (lines 309–318): the digest of the undelimited
concatenation of the six fields, parameterized by the digest function
`keccak256`. -/
def generateDataHash (keccak256 : String → Bytes32)
    (name rollNumber degree branch graduationYear certId : String) : Bytes32 :=
  keccak256 (encodePacked name rollNumber degree branch graduationYear certId)

/-- One external call together with its transaction environment. -/
inductive Call where
  | authorizeIssuer (sender issuer : Address) (name : String)
  | revokeIssuer (sender issuer : Address)
  | transferOwnership (sender newOwner : Address)
  | addAlumniRecord (sender : Address) (blockTimestamp blockNum : Nat)
      (certId : String) (dataHash : Bytes32)
  | verifyRecord (sender : Address) (certId : String) (dataHash : Bytes32)

/-- EVM revert semantics of one call: on success the updated storage, on a
failed `require` the original storage together with the error kind. -/
def step (st : ContractState) (c : Call) : ContractState × Option VmError :=
  match c with
  | .authorizeIssuer sender issuer name =>
    match authorizeIssuer st sender issuer name with
    | .ok st' => (st', none)
    | .error e => (st, some e)
  | .revokeIssuer sender issuer =>
    match revokeIssuer st sender issuer with
    | .ok st' => (st', none)
    | .error e => (st, some e)
  | .transferOwnership sender newOwner =>
    match transferOwnership st sender newOwner with
    | .ok st' => (st', none)
    | .error e => (st, some e)
  | .addAlumniRecord sender ts bn certId dataHash =>
    match addAlumniRecord st sender ts bn certId dataHash with
    | .ok (_, st') => (st', none)
    | .error e => (st, some e)
  | .verifyRecord _ certId dataHash =>
    match verifyRecord st certId dataHash with
    | .ok _ => (st, none)
    | .error e => (st, some e)

/-- Run a sequence of external calls under revert semantics. -/
def execCalls (st : ContractState) (cs : List Call) : ContractState :=
  cs.foldl (fun s c => (step s c).1) st

/-- The certificate id created by one call: the singleton of its `certId`
when the call is a successful `addAlumniRecord`, else nothing. -/
def createdByStep (st : ContractState) (c : Call) : List String :=
  match c, (step st c).2 with
  | .addAlumniRecord _ _ _ certId _, none => [certId]
  | _, _ => []

/-- The certificate ids of the successful `addAlumniRecord` calls of a
trace, in call order. -/
def addedCertIds : ContractState → List Call → List String
  | _, [] => []
  | st, c :: cs => createdByStep st c ++ addedCertIds (step st c).1 cs

/-- The record written by a successful `addAlumniRecord`. -/
def mkRecord (st : ContractState) (sender : Address) (ts bn : Nat)
    (certId : String) (dataHash : Bytes32) : AlumniRecord :=
  { certId := certId, dataHash := dataHash, issuer := sender,
    timestamp := ts, blockNumber := bn, recExists := true,
    issuerName := st.issuerNames sender }

/-- The post-state of a successful `addAlumniRecord`. -/
def addRecordState (st : ContractState) (sender : Address) (ts bn : Nat)
    (certId : String) (dataHash : Bytes32) : ContractState :=
  { st with
    records := fun k => if k = certId then mkRecord st sender ts bn certId dataHash
      else st.records k
    certificateIds := st.certificateIds ++ [certId]
    totalRecords := st.totalRecords + 1 }

/- Concrete fixture used by the hypothesis witnesses: deployer `1` named
"Uni", plus a length-based stand-in digest (any digest function fits the
parameterized definitions). -/

/-- A concrete digest function for witnesses: one plus the length of the
digested string (never the zero sentinel). -/
def keccakLen : String → Bytes32 := fun s => s.length + 1

/-- Fixture: freshly deployed contract, deployer `1`, name "Uni". -/
def stA : ContractState := initState 1 "Uni"

/-- Fixture: the hash the fixture record is created with. -/
def hashC3 : Bytes32 := generateDataHash keccakLen "Jane" "R1" "BSc" "CS" "2024" "CERT-1"

/-- Fixture: `stA` after the deployer adds "CERT-1" with hash `hashC3`. -/
def stB : ContractState := addRecordState stA 1 10 5 "CERT-1" hashC3

/-- Fixture: `stA` after the owner authorizes issuer `2` as "Acme". -/
def stAuth : ContractState :=
  { stA with
    authorizedIssuers := fun a => if a = 2 then true else stA.authorizedIssuers a
    issuerNames := fun a => if a = 2 then "Acme" else stA.issuerNames a }

/-- Fixture: `stAuth` after issuer `2` adds record "CERT-9". -/
def stAdd : ContractState := addRecordState stAuth 2 20 6 "CERT-9" 7

/-- Fixture: `stAdd` after the owner revokes issuer `2`. -/
def stRev : ContractState :=
  { stAdd with
    authorizedIssuers := fun a => if a = 2 then false else stAdd.authorizedIssuers a }

/-- Fixture: `stA` after the owner transfers ownership to `2`. -/
def stT : ContractState :=
  { stA with
    owner := 2
    authorizedIssuers := fun a => if a = 2 then true else stA.authorizedIssuers a }

/-- The invariant of claim C6 as a predicate on states. -/
def ownerAuthorized (st : ContractState) : Prop :=
  st.authorizedIssuers st.owner = true

/-- Inversion of a successful `authorizeIssuer`: the guards held and the
state update is exactly the two mapping writes. -/
lemma authorizeIssuer_ok_inv {st : ContractState} {sender issuer : Address}
    {name : String} {st' : ContractState}
    (h : authorizeIssuer st sender issuer name = .ok st') :
    sender = st.owner ∧ issuer ≠ 0 ∧ st.authorizedIssuers issuer = false ∧
    st' = { st with
      authorizedIssuers := fun a => if a = issuer then true else st.authorizedIssuers a
      issuerNames := fun a => if a = issuer then name else st.issuerNames a } := by
  unfold authorizeIssuer at h
  split at h
  · split at h
    · exact Except.noConfusion h
    · split at h
      · exact Except.noConfusion h
      · rename_i h1 h2 h3
        injection h with h
        exact ⟨h1, h2, by simpa using h3, h.symm⟩
  · exact Except.noConfusion h

/-- Inversion of a successful `revokeIssuer`. -/
lemma revokeIssuer_ok_inv {st : ContractState} {sender issuer : Address}
    {st' : ContractState} (h : revokeIssuer st sender issuer = .ok st') :
    sender = st.owner ∧ st.authorizedIssuers issuer = true ∧ issuer ≠ st.owner ∧
    st' = { st with
      authorizedIssuers := fun a => if a = issuer then false else st.authorizedIssuers a } := by
  unfold revokeIssuer at h
  split at h
  · split at h
    · exact Except.noConfusion h
    · split at h
      · exact Except.noConfusion h
      · rename_i h1 h2 h3
        injection h with h
        exact ⟨h1, by simpa using h2, h3, h.symm⟩
  · exact Except.noConfusion h

/-- Inversion of a successful `transferOwnership`: the guards held, the
owner is reassigned, and the authorization map gains (at most) the new
owner; everything else is untouched. -/
lemma transferOwnership_ok_inv {st : ContractState} {sender newOwner : Address}
    {st' : ContractState} (h : transferOwnership st sender newOwner = .ok st') :
    sender = st.owner ∧ newOwner ≠ 0 ∧ newOwner ≠ st.owner ∧
    st'.owner = newOwner ∧
    (∀ a, st'.authorizedIssuers a = if a = newOwner then true else st.authorizedIssuers a) ∧
    st'.issuerNames = st.issuerNames ∧ st'.records = st.records ∧
    st'.certificateIds = st.certificateIds ∧ st'.totalRecords = st.totalRecords := by
  unfold transferOwnership at h
  split at h
  · split at h
    · exact Except.noConfusion h
    · split at h
      · exact Except.noConfusion h
      · rename_i h1 h2 h3
        split at h
        · injection h with h
          subst h
          exact ⟨h1, h2, h3, rfl, fun a => rfl, rfl, rfl, rfl, rfl⟩
        · rename_i h4
          injection h with h
          subst h
          refine ⟨h1, h2, h3, rfl, fun a => ?_, rfl, rfl, rfl, rfl⟩
          by_cases ha : a = newOwner
          · subst ha
            simp [(by simpa using h4 : st.authorizedIssuers a = true)]
          · simp [ha]
  · exact Except.noConfusion h

/-- Inversion of a successful `addAlumniRecord`: all four guards held, the
outputs are `(true, timestamp, blockNumber)`, and the state update is the
record write, the index append and the counter increment. -/
lemma addAlumniRecord_ok_inv {st : ContractState} {sender : Address}
    {ts bn : Nat} {certId : String} {dataHash : Bytes32}
    {out : Bool × Nat × Nat} {st' : ContractState}
    (h : addAlumniRecord st sender ts bn certId dataHash = .ok (out, st')) :
    st.authorizedIssuers sender = true ∧ (st.records certId).recExists = false ∧
    certId ≠ "" ∧ dataHash ≠ 0 ∧ out = (true, ts, bn) ∧
    st' = { st with
      records := fun k => if k = certId then mkRecord st sender ts bn certId dataHash
        else st.records k
      certificateIds := st.certificateIds ++ [certId]
      totalRecords := st.totalRecords + 1 } := by
  unfold addAlumniRecord at h
  split at h
  · exact Except.noConfusion h
  · split at h
    · exact Except.noConfusion h
    · split at h
      · exact Except.noConfusion h
      · split at h
        · exact Except.noConfusion h
        · rename_i h1 h2 h3 h4
          injection h with h
          injection h with hout hst
          exact ⟨by simpa using h1, by simpa using h2, h3, h4, hout.symm,
            hst.symm⟩

/-- Running `verifyRecord` on an existing record returns the hash comparison and
the record's attribution fields. -/
lemma verifyRecord_of_exists {st : ContractState} {certId : String}
    (dataHash : Bytes32) (h : (st.records certId).recExists = true) :
    verifyRecord st certId dataHash =
      .ok (decide ((st.records certId).dataHash = dataHash),
           (st.records certId).issuer, (st.records certId).issuerName,
           (st.records certId).timestamp, (st.records certId).blockNumber) := by
  unfold verifyRecord
  simp [h]

/-- Frame of one call on the ledger index: only a successful
`addAlumniRecord` appends (its one `certId`); no call removes or reorders. -/
lemma step_certificateIds (st : ContractState) (c : Call) :
    ((step st c).1).certificateIds = st.certificateIds ++ createdByStep st c := by
  cases c with
  | authorizeIssuer sender issuer name =>
    rcases he : authorizeIssuer st sender issuer name with e | st'
    · simp [step, createdByStep, he]
    · obtain ⟨-, -, -, hst⟩ := authorizeIssuer_ok_inv he
      subst hst
      simp [step, createdByStep, he]
  | revokeIssuer sender issuer =>
    rcases he : revokeIssuer st sender issuer with e | st'
    · simp [step, createdByStep, he]
    · obtain ⟨-, -, -, hst⟩ := revokeIssuer_ok_inv he
      subst hst
      simp [step, createdByStep, he]
  | transferOwnership sender newOwner =>
    rcases he : transferOwnership st sender newOwner with e | st'
    · simp [step, createdByStep, he]
    · obtain ⟨-, -, -, -, -, -, -, hcert, -⟩ := transferOwnership_ok_inv he
      simp [step, createdByStep, he, hcert]
  | addAlumniRecord sender ts bn certId dataHash =>
    rcases he : addAlumniRecord st sender ts bn certId dataHash with e | p
    · simp [step, createdByStep, he]
    · obtain ⟨out, st'⟩ := p
      obtain ⟨-, -, -, -, -, hst⟩ := addAlumniRecord_ok_inv he
      subst hst
      simp [step, createdByStep, he]
  | verifyRecord sender certId dataHash =>
    rcases he : verifyRecord st certId dataHash with e | out <;>
      simp [step, createdByStep, he]

/-- Frame of one call on the record counter: it grows by exactly the
number of certificate ids the call created. -/
lemma step_totalRecords (st : ContractState) (c : Call) :
    ((step st c).1).totalRecords = st.totalRecords + (createdByStep st c).length := by
  cases c with
  | authorizeIssuer sender issuer name =>
    rcases he : authorizeIssuer st sender issuer name with e | st'
    · simp [step, createdByStep, he]
    · obtain ⟨-, -, -, hst⟩ := authorizeIssuer_ok_inv he
      subst hst
      simp [step, createdByStep, he]
  | revokeIssuer sender issuer =>
    rcases he : revokeIssuer st sender issuer with e | st'
    · simp [step, createdByStep, he]
    · obtain ⟨-, -, -, hst⟩ := revokeIssuer_ok_inv he
      subst hst
      simp [step, createdByStep, he]
  | transferOwnership sender newOwner =>
    rcases he : transferOwnership st sender newOwner with e | st'
    · simp [step, createdByStep, he]
    · obtain ⟨-, -, -, -, -, -, -, -, htot⟩ := transferOwnership_ok_inv he
      simp [step, createdByStep, he, htot]
  | addAlumniRecord sender ts bn certId dataHash =>
    rcases he : addAlumniRecord st sender ts bn certId dataHash with e | p
    · simp [step, createdByStep, he]
    · obtain ⟨out, st'⟩ := p
      obtain ⟨-, -, -, -, -, hst⟩ := addAlumniRecord_ok_inv he
      subst hst
      simp [step, createdByStep, he]
  | verifyRecord sender certId dataHash =>
    rcases he : verifyRecord st certId dataHash with e | out <;>
      simp [step, createdByStep, he]

/-- Every call preserves membership of the owner in the authorized set. -/
lemma step_ownerAuthorized {st : ContractState} (c : Call)
    (h : ownerAuthorized st) : ownerAuthorized (step st c).1 := by
  unfold ownerAuthorized at h ⊢
  cases c with
  | authorizeIssuer sender issuer name =>
    rcases he : authorizeIssuer st sender issuer name with e | st'
    · simpa [step, he] using h
    · obtain ⟨-, -, -, hst⟩ := authorizeIssuer_ok_inv he
      subst hst
      simp only [step, he]
      by_cases ho : st.owner = issuer <;> simp [ho, h]
  | revokeIssuer sender issuer =>
    rcases he : revokeIssuer st sender issuer with e | st'
    · simpa [step, he] using h
    · obtain ⟨-, -, hne, hst⟩ := revokeIssuer_ok_inv he
      subst hst
      simp only [step, he]
      rw [if_neg (fun hh => hne hh.symm)]
      exact h
  | transferOwnership sender newOwner =>
    rcases he : transferOwnership st sender newOwner with e | st'
    · simpa [step, he] using h
    · obtain ⟨-, -, -, hown, hauth, -, -, -, -⟩ := transferOwnership_ok_inv he
      simp [step, he, hown, hauth]
  | addAlumniRecord sender ts bn certId dataHash =>
    rcases he : addAlumniRecord st sender ts bn certId dataHash with e | p
    · simpa [step, he] using h
    · obtain ⟨out, st'⟩ := p
      obtain ⟨-, -, -, -, -, hst⟩ := addAlumniRecord_ok_inv he
      subst hst
      simpa [step, he] using h
  | verifyRecord sender certId dataHash =>
    rcases he : verifyRecord st certId dataHash with e | out <;>
      simpa [step, he] using h

/-- Revert semantics: a call that reports an error leaves the state as it
was. -/
lemma step_error_frame {st : ContractState} {c : Call} {e : VmError}
    (h : (step st c).2 = some e) : (step st c).1 = st := by
  cases c with
  | authorizeIssuer sender issuer name =>
    rcases he : authorizeIssuer st sender issuer name with e' | st' <;>
      simp [step, he] at h ⊢
  | revokeIssuer sender issuer =>
    rcases he : revokeIssuer st sender issuer with e' | st' <;>
      simp [step, he] at h ⊢
  | transferOwnership sender newOwner =>
    rcases he : transferOwnership st sender newOwner with e' | st' <;>
      simp [step, he] at h ⊢
  | addAlumniRecord sender ts bn certId dataHash =>
    rcases he : addAlumniRecord st sender ts bn certId dataHash with e' | p
    · simp [step, he]
    · obtain ⟨out, st'⟩ := p
      simp [step, he] at h
  | verifyRecord sender certId dataHash =>
    rcases he : verifyRecord st certId dataHash with e' | out <;>
      simp [step, he] at h ⊢

/-- Running a trace appends exactly the created certificate ids, in call
order, to the ledger index. -/
lemma execCalls_certificateIds (cs : List Call) :
    ∀ st : ContractState,
      (execCalls st cs).certificateIds = st.certificateIds ++ addedCertIds st cs := by
  induction cs with
  | nil => intro st; simp [execCalls, addedCertIds]
  | cons c cs ih =>
    intro st
    calc (execCalls (step st c).1 cs).certificateIds
        = ((step st c).1).certificateIds ++ addedCertIds (step st c).1 cs := ih _
      _ = st.certificateIds ++ (createdByStep st c ++ addedCertIds (step st c).1 cs) := by
          rw [step_certificateIds, List.append_assoc]
      _ = st.certificateIds ++ addedCertIds st (c :: cs) := rfl

/-- Running a trace preserves the agreement of index length and counter. -/
lemma execCalls_length_totalRecords (cs : List Call) :
    ∀ st : ContractState, st.certificateIds.length = st.totalRecords →
      (execCalls st cs).certificateIds.length = (execCalls st cs).totalRecords := by
  induction cs with
  | nil => intro st h; exact h
  | cons c cs ih =>
    intro st h
    refine ih _ ?_
    rw [step_certificateIds, step_totalRecords, List.length_append, h]

/-- Right cancellation of string concatenation. -/
lemma strAppendCancelRight {a b c : String} (h : a ++ c = b ++ c) : a = b := by
  have hd : a.data ++ c.data = b.data ++ c.data := by
    simpa [String.data_append] using congrArg String.data h
  exact String.ext (List.append_cancel_right hd)

/-- Left cancellation of string concatenation. -/
lemma strAppendCancelLeft {a b c : String} (h : a ++ b = a ++ c) : b = c := by
  have hd : a.data ++ b.data = a.data ++ c.data := by
    simpa [String.data_append] using congrArg String.data h
  exact String.ext (List.append_cancel_left hd)

/-- If the packed encodings agree and the last five fields agree, the
first field agrees. -/
lemma encodePacked_inj_name {n n2 r d b y c : String}
    (h : encodePacked n2 r d b y c = encodePacked n r d b y c) : n2 = n := by
  unfold encodePacked at h
  exact strAppendCancelRight (strAppendCancelRight (strAppendCancelRight
    (strAppendCancelRight (strAppendCancelRight h))))

/-- Packed encoding pins the second field when the others agree. -/
lemma encodePacked_inj_roll {n r r2 d b y c : String}
    (h : encodePacked n r2 d b y c = encodePacked n r d b y c) : r2 = r := by
  unfold encodePacked at h
  exact strAppendCancelLeft (strAppendCancelRight (strAppendCancelRight
    (strAppendCancelRight (strAppendCancelRight h))))

/-- Packed encoding pins the third field when the others agree. -/
lemma encodePacked_inj_degree {n r d d2 b y c : String}
    (h : encodePacked n r d2 b y c = encodePacked n r d b y c) : d2 = d := by
  unfold encodePacked at h
  exact strAppendCancelLeft (strAppendCancelRight (strAppendCancelRight
    (strAppendCancelRight h)))

/-- Packed encoding pins the fourth field when the others agree. -/
lemma encodePacked_inj_branch {n r d b b2 y c : String}
    (h : encodePacked n r d b2 y c = encodePacked n r d b y c) : b2 = b := by
  unfold encodePacked at h
  exact strAppendCancelLeft (strAppendCancelRight (strAppendCancelRight h))

/-- Packed encoding pins the fifth field when the others agree. -/
lemma encodePacked_inj_year {n r d b y y2 c : String}
    (h : encodePacked n r d b y2 c = encodePacked n r d b y c) : y2 = y := by
  unfold encodePacked at h
  exact strAppendCancelLeft (strAppendCancelRight h)

/-- Packed encoding pins the sixth field when the others agree. -/
lemma encodePacked_inj_cert {n r d b y c c2 : String}
    (h : encodePacked n r d b y c2 = encodePacked n r d b y c) : c2 = c := by
  unfold encodePacked at h
  exact strAppendCancelLeft h

/-- Function `addAlumniRecord` succeeds exactly as `addRecordState` describes when
all four guards hold. -/
lemma addAlumniRecord_ok {st : ContractState} {sender : Address}
    {ts bn : Nat} {certId : String} {dataHash : Bytes32}
    (hauth : st.authorizedIssuers sender = true)
    (hfresh : (st.records certId).recExists = false)
    (hcid : certId ≠ "") (hh : dataHash ≠ 0) :
    addAlumniRecord st sender ts bn certId dataHash =
      .ok ((true, ts, bn), addRecordState st sender ts bn certId dataHash) := by
  unfold addAlumniRecord addRecordState mkRecord
  simp [hauth, hfresh, hcid, hh]

/-- C2: `verifyRecord` fails with `certIdDoesNotExist` exactly when no
record exists for the certificate id; when one exists, it succeeds and
returns the exact-equality comparison with the stored hash together with
the record's issuer, issuer name, timestamp and block number — in the
matching and in the mismatching case alike. -/
theorem claim_C2 (st : ContractState) (certId : String) (candidateHash : Bytes32) :
    (verifyRecord st certId candidateHash = .error .certIdDoesNotExist ↔
      recordExists st certId = false)
    ∧ (recordExists st certId = true →
        verifyRecord st certId candidateHash =
          .ok (decide ((st.records certId).dataHash = candidateHash),
               (st.records certId).issuer, (st.records certId).issuerName,
               (st.records certId).timestamp, (st.records certId).blockNumber)) := by
  constructor
  · unfold verifyRecord recordExists
    by_cases hx : (st.records certId).recExists = false <;> simp [hx]
  · intro hx
    exact verifyRecord_of_exists candidateHash hx

/-- C2 witness: on the fixture, verifying an absent id fails with
`certIdDoesNotExist`, and verifying the stored id with a wrong hash
succeeds with `isValid = false`. -/
theorem claim_C2_witness :
    verifyRecord stA "CERT-1" 0 = .error .certIdDoesNotExist
    ∧ verifyRecord stB "CERT-1" 0 = .ok (false, 1, "Uni", 10, 5) := by
  refine ⟨(claim_C2 stA "CERT-1" 0).1.mpr (by rfl), ?_⟩
  exact ((claim_C2 stB "CERT-1" 0).2 (by rfl)).trans (by rfl)

/-- C4: `generateDataHash` is a function of exactly the six string fields
computed over their undelimited concatenation; consequently the distinct
inputs `("AB","C",…)` and `("A","BC",…)` (all other fields equal) hash
identically — for every digest function. -/
theorem claim_C4 (keccak256 : String → Bytes32) (n r d b y c : String) :
    generateDataHash keccak256 n r d b y c = keccak256 (n ++ r ++ d ++ b ++ y ++ c)
    ∧ (("AB", "C") ≠ (("A" : String), ("BC" : String)))
    ∧ generateDataHash keccak256 "AB" "C" "" "" "" "" =
        generateDataHash keccak256 "A" "BC" "" "" "" "" :=
  ⟨rfl, by decide, congrArg keccak256 (by decide)⟩

/-- C9: a call that reports an error leaves every component of the state
exactly as it was (EVM revert semantics: no partial mutation). -/
theorem claim_C9 (st : ContractState) (c : Call) (e : VmError)
    (hfail : (step st c).2 = some e) : (step st c).1 = st :=
  step_error_frame hfail

/-- C9 witness: a non-owner revocation attempt fails and leaves the
fixture state unchanged. -/
theorem claim_C9_witness : (step stA (Call.revokeIssuer 2 1)).1 = stA :=
  claim_C9 stA (Call.revokeIssuer 2 1) VmError.onlyOwner (by rfl)

/-- C10: `addAlumniRecord` checks caller authorization first and the
duplicate key second, before input validity; hence an authorized caller
re-adding an existing id gets `certIdAlreadyExists` for every data hash,
the all-zero sentinel included. -/
theorem claim_C10 (st : ContractState) (sender : Address) (ts bn : Nat)
    (certId : String) (dataHash : Bytes32) :
    (st.authorizedIssuers sender = false →
      addAlumniRecord st sender ts bn certId dataHash = .error .notAuthorizedIssuer)
    ∧ (st.authorizedIssuers sender = true → (st.records certId).recExists = true →
      addAlumniRecord st sender ts bn certId dataHash = .error .certIdAlreadyExists) := by
  constructor
  · intro h
    unfold addAlumniRecord
    simp [h]
  · intro hauth hex
    unfold addAlumniRecord
    simp [hauth, hex]

/-- C10 witness: on the fixture, re-adding "CERT-1" with the all-zero
sentinel hash fails with `certIdAlreadyExists`, not with the empty-hash
error. -/
theorem claim_C10_witness :
    addAlumniRecord stB 1 11 6 "CERT-1" 0 = .error .certIdAlreadyExists :=
  (claim_C10 stB 1 11 6 "CERT-1" 0).2 (by rfl) (by rfl)

/-- C1: for a non-empty `certId` not yet in the ledger and a non-zero
hash, an authorized caller's first `addAlumniRecord` succeeds, the second
with the same `certId` fails with `certIdAlreadyExists`, and afterwards
the ledger holds exactly one record for that id — the one stored by the
first call. -/
theorem claim_C1 (st : ContractState) (sender : Address)
    (ts1 bn1 ts2 bn2 : Nat) (certId : String) (h1 h2 : Bytes32)
    (hauth : st.authorizedIssuers sender = true)
    (hfresh : (st.records certId).recExists = false)
    (hidx : certId ∉ st.certificateIds)
    (hcid : certId ≠ "") (hh1 : h1 ≠ 0) :
    addAlumniRecord st sender ts1 bn1 certId h1 =
      .ok ((true, ts1, bn1), addRecordState st sender ts1 bn1 certId h1)
    ∧ addAlumniRecord (addRecordState st sender ts1 bn1 certId h1)
        sender ts2 bn2 certId h2 = .error .certIdAlreadyExists
    ∧ (addRecordState st sender ts1 bn1 certId h1).records certId =
        mkRecord st sender ts1 bn1 certId h1
    ∧ (addRecordState st sender ts1 bn1 certId h1).certificateIds.count certId = 1 := by
  refine ⟨addAlumniRecord_ok hauth hfresh hcid hh1, ?_, ?_, ?_⟩
  · unfold addAlumniRecord
    simp [addRecordState, mkRecord, hauth]
  · simp [addRecordState]
  · simp [addRecordState, List.count_append]
    exact List.count_eq_zero.2 hidx

/-- C1 witness: on the fresh fixture, adding "CERT-1" twice succeeds then
fails with `certIdAlreadyExists`, and one record remains. -/
theorem claim_C1_witness :
    addAlumniRecord stA 1 10 5 "CERT-1" 7 =
      .ok ((true, 10, 5), addRecordState stA 1 10 5 "CERT-1" 7)
    ∧ addAlumniRecord (addRecordState stA 1 10 5 "CERT-1" 7) 1 11 6 "CERT-1" 9 =
      .error .certIdAlreadyExists
    ∧ (addRecordState stA 1 10 5 "CERT-1" 7).certificateIds.count "CERT-1" = 1 := by
  have h := claim_C1 stA 1 10 5 11 6 "CERT-1" 7 9 (by rfl) (by rfl)
    (by simp [stA, initState]) (by decide) (by decide)
  exact ⟨h.1, h.2.1, h.2.2.2⟩

/-- C5: a successful `revokeIssuer` clears exactly the revoked issuer's
authorization flag; the issuer's stored name, every record (in particular
each record's `issuerName` snapshot), the index, the counter, the owner
and every other issuer's authorization are unchanged. -/
theorem claim_C5 (st : ContractState) (sender issuer : Address)
    (st' : ContractState) (hrev : revokeIssuer st sender issuer = .ok st') :
    isAuthorizedIssuer st' issuer = false
    ∧ st'.issuerNames = st.issuerNames
    ∧ st'.records = st.records
    ∧ (∀ certId, getRecord st' certId = getRecord st certId)
    ∧ (∀ certId, (st'.records certId).issuerName = (st.records certId).issuerName)
    ∧ st'.certificateIds = st.certificateIds
    ∧ st'.totalRecords = st.totalRecords
    ∧ st'.owner = st.owner
    ∧ (∀ a, a ≠ issuer → st'.authorizedIssuers a = st.authorizedIssuers a)
    ∧ getIssuerName st' issuer = getIssuerName st issuer := by
  obtain ⟨-, -, -, hst⟩ := revokeIssuer_ok_inv hrev
  subst hst
  refine ⟨?_, rfl, rfl, fun certId => rfl, fun certId => rfl, rfl, rfl, rfl,
    fun a ha => ?_, rfl⟩
  · simp [isAuthorizedIssuer]
  · simp [ha]

/-- C5 witness: revoking issuer `2` after it created "CERT-9" leaves the
record's issuer-name snapshot "Acme" intact while the issuer is no longer
authorized. -/
theorem claim_C5_witness :
    isAuthorizedIssuer stRev 2 = false
    ∧ (stRev.records "CERT-9").issuerName = "Acme" := by
  have h := claim_C5 stAdd 1 2 stRev (by rfl)
  refine ⟨h.1, ?_⟩
  rw [h.2.2.2.2.1 "CERT-9"]
  rfl

/-- C6: in every state reachable from deployment by any call trace, the
current owner is an authorized issuer. -/
theorem claim_C6 (deployer : Address) (institutionName : String)
    (calls : List Call) :
    isAuthorizedIssuer (execCalls (initState deployer institutionName) calls)
      (execCalls (initState deployer institutionName) calls).owner = true := by
  have hinit : ownerAuthorized (initState deployer institutionName) := by
    simp [ownerAuthorized, initState]
  have hgen : ∀ (cs : List Call) (st : ContractState), ownerAuthorized st →
      ownerAuthorized (execCalls st cs) := by
    intro cs
    induction cs with
    | nil => intro st h; exact h
    | cons c cs ih => intro st h; exact ih _ (step_ownerAuthorized c h)
  exact hgen calls _ hinit

/-- C7: `transferOwnership` fails with `onlyOwner` for a non-owner caller,
`invalidNewOwnerAddress` for the zero identity and `alreadyTheOwner` for
the current owner; on success the owner is reassigned and authorized (the
name map untouched), after which `authorizeIssuer` by the new owner
succeeds on a fresh non-zero issuer and by the prior owner fails with
`onlyOwner`. -/
theorem claim_C7 (st : ContractState) (sender newOwner : Address) :
    (sender ≠ st.owner →
      transferOwnership st sender newOwner = .error .onlyOwner)
    ∧ (sender = st.owner → newOwner = 0 →
      transferOwnership st sender newOwner = .error .invalidNewOwnerAddress)
    ∧ (sender = st.owner → newOwner ≠ 0 → newOwner = st.owner →
      transferOwnership st sender newOwner = .error .alreadyTheOwner)
    ∧ (∀ st', transferOwnership st sender newOwner = .ok st' →
        st'.owner = newOwner
        ∧ st'.authorizedIssuers newOwner = true
        ∧ st'.issuerNames = st.issuerNames
        ∧ (∀ a, a ≠ newOwner → st'.authorizedIssuers a = st.authorizedIssuers a)
        ∧ (∀ issuer name, issuer ≠ 0 → st'.authorizedIssuers issuer = false →
            ∃ st'', authorizeIssuer st' newOwner issuer name = .ok st'')
        ∧ (∀ issuer name,
            authorizeIssuer st' sender issuer name = .error .onlyOwner)) := by
  refine ⟨?_, ?_, ?_, ?_⟩
  · intro hns
    unfold transferOwnership
    rw [if_neg hns]
  · intro hs h0
    unfold transferOwnership
    simp [hs, h0]
  · intro hs h0 heq
    unfold transferOwnership
    rw [if_pos hs, if_neg h0, if_pos heq]
  · intro st' hok
    obtain ⟨hs, h0, hno, hown, hauth, hnames, -, -, -⟩ :=
      transferOwnership_ok_inv hok
    refine ⟨hown, by rw [hauth]; simp, hnames,
      fun a ha => by rw [hauth a, if_neg ha], ?_, ?_⟩
    · intro issuer name hi0 hnotauth
      refine ⟨{ st' with
        authorizedIssuers := fun a => if a = issuer then true else st'.authorizedIssuers a
        issuerNames := fun a => if a = issuer then name else st'.issuerNames a }, ?_⟩
      unfold authorizeIssuer
      simp [hown, hi0, hnotauth]
    · intro issuer name
      have hcond : ¬ (sender = st'.owner) := by
        rw [hown, hs]
        exact fun hh => hno hh.symm
      unfold authorizeIssuer
      rw [if_neg hcond]

/-- C7 witness: transferring ownership of the fixture to `2` makes `2` the
owner; `authorizeIssuer` then succeeds for `2` and fails with `onlyOwner`
for the prior owner `1`. -/
theorem claim_C7_witness :
    stT.owner = 2
    ∧ authorizeIssuer stT 1 3 "CS Dept" = .error .onlyOwner
    ∧ (authorizeIssuer stT 2 3 "CS Dept").isOk = true := by
  have h4 := (claim_C7 stA 1 2).2.2.2 stT (by rfl)
  refine ⟨h4.1, h4.2.2.2.2.2 3 "CS Dept", ?_⟩
  obtain ⟨st'', hok⟩ := h4.2.2.2.2.1 3 "CS Dept" (by decide) (by rfl)
  rw [hok]
  rfl

/-- C8: in every state reachable from deployment by any call trace, the
length of `getAllCertificateIds` equals `getTotalRecords`, and the list is
exactly the certificate ids of the successful additions, in creation
order — never reordered or pruned. -/
theorem claim_C8 (deployer : Address) (institutionName : String)
    (calls : List Call) :
    (getAllCertificateIds (execCalls (initState deployer institutionName) calls)).length
      = getTotalRecords (execCalls (initState deployer institutionName) calls)
    ∧ getAllCertificateIds (execCalls (initState deployer institutionName) calls)
      = addedCertIds (initState deployer institutionName) calls := by
  constructor
  · exact execCalls_length_totalRecords calls _ rfl
  · have h := execCalls_certificateIds calls (initState deployer institutionName)
    simp only [show (initState deployer institutionName).certificateIds = []
      from rfl, List.nil_append] at h
    exact h

/-- C3: after a record for `certId` is created with hash
`generateDataHash (n, r, d, b, y, certId)`, verifying it against
`generateDataHash (n2, r2, d2, b2, y2, c2)` succeeds and returns
`isValid = true` exactly when the two canonicalizations (undelimited
concatenations) coincide — assuming the digest does not collide on the
two canonicalized strings — and returns `isValid = false` whenever
exactly one of the six fields differs. -/
theorem claim_C3 (keccak256 : String → Bytes32) (st : ContractState)
    (sender : Address) (ts bn : Nat) (n r d b y certId : String)
    (n2 r2 d2 b2 y2 c2 : String) (out : Bool × Nat × Nat) (st' : ContractState)
    (hadd : addAlumniRecord st sender ts bn certId
      (generateDataHash keccak256 n r d b y certId) = .ok (out, st'))
    (hcoll : keccak256 (encodePacked n2 r2 d2 b2 y2 c2) =
        keccak256 (encodePacked n r d b y certId) →
        encodePacked n2 r2 d2 b2 y2 c2 = encodePacked n r d b y certId) :
    verifyRecord st' certId (generateDataHash keccak256 n2 r2 d2 b2 y2 c2) =
      .ok (decide (encodePacked n2 r2 d2 b2 y2 c2 = encodePacked n r d b y certId),
           sender, st.issuerNames sender, ts, bn)
    ∧ (n2 ≠ n → r2 = r → d2 = d → b2 = b → y2 = y → c2 = certId →
        verifyRecord st' certId (generateDataHash keccak256 n2 r2 d2 b2 y2 c2) =
          .ok (false, sender, st.issuerNames sender, ts, bn))
    ∧ (n2 = n → r2 ≠ r → d2 = d → b2 = b → y2 = y → c2 = certId →
        verifyRecord st' certId (generateDataHash keccak256 n2 r2 d2 b2 y2 c2) =
          .ok (false, sender, st.issuerNames sender, ts, bn))
    ∧ (n2 = n → r2 = r → d2 ≠ d → b2 = b → y2 = y → c2 = certId →
        verifyRecord st' certId (generateDataHash keccak256 n2 r2 d2 b2 y2 c2) =
          .ok (false, sender, st.issuerNames sender, ts, bn))
    ∧ (n2 = n → r2 = r → d2 = d → b2 ≠ b → y2 = y → c2 = certId →
        verifyRecord st' certId (generateDataHash keccak256 n2 r2 d2 b2 y2 c2) =
          .ok (false, sender, st.issuerNames sender, ts, bn))
    ∧ (n2 = n → r2 = r → d2 = d → b2 = b → y2 ≠ y → c2 = certId →
        verifyRecord st' certId (generateDataHash keccak256 n2 r2 d2 b2 y2 c2) =
          .ok (false, sender, st.issuerNames sender, ts, bn))
    ∧ (n2 = n → r2 = r → d2 = d → b2 = b → y2 = y → c2 ≠ certId →
        verifyRecord st' certId (generateDataHash keccak256 n2 r2 d2 b2 y2 c2) =
          .ok (false, sender, st.issuerNames sender, ts, bn)) := by
  obtain ⟨hauth, hfresh, hcid, hh, -, -⟩ := addAlumniRecord_ok_inv hadd
  have hadd2 : addAlumniRecord st sender ts bn certId
      (generateDataHash keccak256 n r d b y certId) =
      .ok ((true, ts, bn), addRecordState st sender ts bn certId
        (generateDataHash keccak256 n r d b y certId)) :=
    addAlumniRecord_ok hauth hfresh hcid hh
  have hpair := hadd.symm.trans hadd2
  injection hpair with hpair
  injection hpair with hout2 hst'
  subst hst'
  have hrecs : (addRecordState st sender ts bn certId
      (generateDataHash keccak256 n r d b y certId)).records certId =
      mkRecord st sender ts bn certId
        (generateDataHash keccak256 n r d b y certId) := by
    simp [addRecordState]
  have hex : ((addRecordState st sender ts bn certId
      (generateDataHash keccak256 n r d b y certId)).records certId).recExists
      = true := by
    rw [hrecs]
    rfl
  have hv := verifyRecord_of_exists
    (generateDataHash keccak256 n2 r2 d2 b2 y2 c2) hex
  rw [hrecs] at hv
  simp only [mkRecord] at hv
  have hdec : decide (generateDataHash keccak256 n r d b y certId =
        generateDataHash keccak256 n2 r2 d2 b2 y2 c2) =
      decide (encodePacked n2 r2 d2 b2 y2 c2 = encodePacked n r d b y certId) := by
    unfold generateDataHash
    by_cases hq : encodePacked n2 r2 d2 b2 y2 c2 = encodePacked n r d b y certId
    · rw [hq]
      simp
    · have hne : ¬ (keccak256 (encodePacked n r d b y certId) =
          keccak256 (encodePacked n2 r2 d2 b2 y2 c2)) :=
        fun hh2 => hq (hcoll hh2.symm)
      simp [hq, hne]
  have hmain : verifyRecord (addRecordState st sender ts bn certId
        (generateDataHash keccak256 n r d b y certId)) certId
        (generateDataHash keccak256 n2 r2 d2 b2 y2 c2) =
      .ok (decide (encodePacked n2 r2 d2 b2 y2 c2 = encodePacked n r d b y certId),
           sender, st.issuerNames sender, ts, bn) := by
    rw [hv, hdec]
  refine ⟨hmain, ?_, ?_, ?_, ?_, ?_, ?_⟩
  · intro h1 h2 h3 h4 h5 h6
    subst h2; subst h3; subst h4; subst h5; subst h6
    rw [hmain, decide_eq_false (fun hh2 => h1 (encodePacked_inj_name hh2))]
  · intro h1 h2 h3 h4 h5 h6
    subst h1; subst h3; subst h4; subst h5; subst h6
    rw [hmain, decide_eq_false (fun hh2 => h2 (encodePacked_inj_roll hh2))]
  · intro h1 h2 h3 h4 h5 h6
    subst h1; subst h2; subst h4; subst h5; subst h6
    rw [hmain, decide_eq_false (fun hh2 => h3 (encodePacked_inj_degree hh2))]
  · intro h1 h2 h3 h4 h5 h6
    subst h1; subst h2; subst h3; subst h5; subst h6
    rw [hmain, decide_eq_false (fun hh2 => h4 (encodePacked_inj_branch hh2))]
  · intro h1 h2 h3 h4 h5 h6
    subst h1; subst h2; subst h3; subst h4; subst h6
    rw [hmain, decide_eq_false (fun hh2 => h5 (encodePacked_inj_year hh2))]
  · intro h1 h2 h3 h4 h5 h6
    subst h1; subst h2; subst h3; subst h4; subst h5
    rw [hmain, decide_eq_false (fun hh2 => h6 (encodePacked_inj_cert hh2))]

/-- C3 witness: on the fixture, verifying "CERT-1" with the hash of the
exact creation fields returns `isValid = true` with the snapshot
attribution. -/
theorem claim_C3_witness :
    verifyRecord stB "CERT-1"
      (generateDataHash keccakLen "Jane" "R1" "BSc" "CS" "2024" "CERT-1") =
      .ok (true, 1, "Uni", 10, 5) := by
  have h := (claim_C3 keccakLen stA 1 10 5 "Jane" "R1" "BSc" "CS" "2024" "CERT-1"
    "Jane" "R1" "BSc" "CS" "2024" "CERT-1" (true, 10, 5) stB (by rfl)
    (fun _ => rfl)).1
  simpa [stA, initState] using h

end AlumniVerification
